import Mathlib

/-!
Formalization of the training harness in `train.py` of the
Co-Speech_Gesture_Generation repository: the custom loss function
`cust_loss`, the epoch runners `train_epoch` and `eval_epoch`, the
training orchestrator `train`, and the resume logic of `main`.

Python floats are modelled as real numbers (and, in the orchestrator,
whose own arithmetic is only accumulation and order comparison, as exact
rationals).  Python exceptions are modelled by an explicit error type
threaded through results.
-/

namespace Train

/-- The Python exceptions that the code in `train.py` can actually raise
on the paths modelled here. -/
inductive PyError where
  | runtimeError : PyError
  | unboundLocalError : String → PyError
  | zeroDivisionError : PyError
deriving DecidableEq

/-- Trajectory tensors of shape `[B, T, D]`.  The entry function is total
over natural indices; the code only ever reads indices below the shape
bounds, so values outside them are irrelevant. -/
structure Tensor3 where
  B : ℕ
  T : ℕ
  D : ℕ
  val : ℕ → ℕ → ℕ → ℝ

/-- `output.numel()` (train.py line 22): the total number of scalar
entries of the tensor. -/
def Tensor3.numel (x : Tensor3) : ℕ := x.B * x.T * x.D

/-- `F.mse_loss(output, target)` (train.py line 25): the mean of the
squared elementwise differences, i.e. their sum divided by the number of
elements. -/
noncomputable def mse_loss (output target : Tensor3) : ℝ :=
  (∑ b in Finset.range output.B, ∑ n in Finset.range output.T, ∑ d in Finset.range output.D,
      (output.val b n d - target.val b n d) ^ 2) / (output.numel : ℝ)

/-- train.py lines 28-32, the continuity ("countinous motion") term for
`T ≥ 2`:
`diff = [abs(output[:, n, :] - output[:, n-1, :]) for n in range(1, T)]`,
`cont_loss = torch.sum(torch.stack(diff)) / n_element`, then
`cont_loss /= 100`. -/
noncomputable def cont_loss (output : Tensor3) : ℝ :=
  (∑ n in Finset.range (output.T - 1), ∑ b in Finset.range output.B,
      ∑ d in Finset.range output.D,
      |output.val b (n + 1) d - output.val b n d|) / (output.numel : ℝ) / 100

/-- train.py lines 35-37, the "motion variance" term:
`norm = torch.norm(output, 2, 1)` reduces dimension 1, which in the
`[B, T, D]` layout is the TIME dimension, so entry `(b, d)` of `norm` is
the L2 norm of the time series at batch `b`, feature `d`; then
`var_loss = -torch.sum(norm) / n_element` and `var_loss /= 1`. -/
noncomputable def var_loss (output : Tensor3) : ℝ :=
  -(∑ b in Finset.range output.B, ∑ d in Finset.range output.D,
      Real.sqrt (∑ n in Finset.range output.T, output.val b n d ^ 2)) / (output.numel : ℝ) / 1

/-- `cust_loss` (train.py lines 21-42).  When `output.shape[1] < 2` the
list comprehension `diff` is empty, `torch.stack([])` raises a
`RuntimeError`, the `except RuntimeError` handler only prints `TEST`,
execution falls through to `cont_loss /= 100`, and since the local
variable `cont_loss` was never assigned this statement raises
`UnboundLocalError`.  For `T ≥ 2` no exception occurs and the combined
loss `mse_loss + alpha * cont_loss + beta * var_loss` (line 40) is
returned. -/
noncomputable def cust_loss (output target : Tensor3) (alpha beta : ℝ) : Except PyError ℝ :=
  if output.T < 2 then
    Except.error (PyError.unboundLocalError ("cont_loss"))
  else
    Except.ok (mse_loss output target + alpha * cont_loss output + beta * var_loss output)

/-- Modelled from the spec: the variance-reward term as the specification
words it — "for every time step, take the Euclidean (L2) norm across the
feature dimension, sum these norms, negate, divide by `n_element`".
This reduces dimension 2 (features), not dimension 1 as the source does;
it is stated here only to be compared against `var_loss`. -/
noncomputable def variance_reward_spec (output : Tensor3) : ℝ :=
  -(∑ b in Finset.range output.B, ∑ n in Finset.range output.T,
      Real.sqrt (∑ d in Finset.range output.D, output.val b n d ^ 2)) / (output.numel : ℝ)

/-- Claim C3: for every pair of trajectory tensors with `T < 2` the loss
evaluator aborts with a signalled failure — but the exception that
escapes is the `UnboundLocalError` raised at `cont_loss /= 100` after
the silent `except RuntimeError` handler, not the
`DegenerateSequenceError` the specification prescribes. -/
theorem cust_loss_short_seq_unbound_local (output target : Tensor3) (alpha beta : ℝ)
    (h : output.T < 2) :
    cust_loss output target alpha beta
      = Except.error (PyError.unboundLocalError ("cont_loss")) := by
  simp [cust_loss, h]

/-- A degenerate single-time-step tensor of shape `[1, 1, 1]`. -/
noncomputable def tOne : Tensor3 := ⟨1, 1, 1, fun _ _ _ => 0⟩

/-- Witness for `cust_loss_short_seq_unbound_local` at a concrete
`[1, 1, 1]` tensor. -/
theorem cust_loss_short_seq_unbound_local_witness :
    tOne.T < 2 ∧ cust_loss tOne tOne 0 1
      = Except.error (PyError.unboundLocalError ("cont_loss")) :=
  ⟨by decide, cust_loss_short_seq_unbound_local tOne tOne 0 1 (by decide)⟩

/-- Claim C4, amended: for `T ≥ 2` and nonnegative weights the loss is
`reconstruction + alpha * continuity + beta * variance_reward`, where
the variance-reward term takes, for every (batch, feature) pair, the
Euclidean norm across the TIME dimension (`torch.norm(output, 2, 1)`
reduces dimension 1), sums these norms, negates, and divides by
`n_element`. -/
theorem cust_loss_decomposition_time_norm (output target : Tensor3) (alpha beta : ℝ)
    (h : 2 ≤ output.T) (_ha : 0 ≤ alpha) (_hb : 0 ≤ beta) :
    cust_loss output target alpha beta
      = Except.ok (mse_loss output target + alpha * cont_loss output + beta * var_loss output)
    ∧ var_loss output
      = -(∑ b in Finset.range output.B, ∑ d in Finset.range output.D,
            Real.sqrt (∑ n in Finset.range output.T, output.val b n d ^ 2))
          / (output.numel : ℝ) := by
  constructor
  · simp [cust_loss, Nat.not_lt.mpr h]
  · simp [var_loss]

/-- A `[1, 2, 2]` tensor whose first time step is the feature vector
`(3, 4)` and whose second time step is `(0, 0)`. -/
noncomputable def tA : Tensor3 :=
  ⟨1, 2, 2, fun _ n d => if n = 0 then (if d = 0 then 3 else 4) else 0⟩

/-- Witness for `cust_loss_decomposition_time_norm` at `tA` with
`alpha = 0`, `beta = 1`. -/
theorem cust_loss_decomposition_time_norm_witness :
    2 ≤ tA.T ∧ (0 : ℝ) ≤ 0 ∧ (0 : ℝ) ≤ 1
    ∧ cust_loss tA tA 0 1
        = Except.ok (mse_loss tA tA + 0 * cont_loss tA + 1 * var_loss tA) :=
  ⟨by decide, le_refl 0, by norm_num,
    (cust_loss_decomposition_time_norm tA tA 0 1 (by decide) (le_refl 0) (by norm_num)).1⟩

/-- Claim C4, counterexample to the claimed norm direction: on `tA`
(time steps `(3,4)` then `(0,0)`) with `alpha = 0`, `beta = 1` the code
returns `-(3 + 4)/4 = -7/4` (norms of per-feature time series), while
the specification's formula with per-time-step feature norms gives
`-(5 + 0)/4 = -5/4`. -/
theorem variance_norm_dim_counterexample :
    cust_loss tA tA 0 1 = Except.ok (-(7 / 4))
    ∧ mse_loss tA tA + 0 * cont_loss tA + 1 * variance_reward_spec tA = -(5 / 4)
    ∧ ((-(7 / 4) : ℝ) ≠ -(5 / 4)) := by
  have hmse : mse_loss tA tA = 0 := by
    simp [mse_loss]
  have h00 : (∑ n in Finset.range tA.T, tA.val 0 n 0 ^ 2) = 9 := by
    norm_num [tA, Finset.sum_range_succ]
  have h01 : (∑ n in Finset.range tA.T, tA.val 0 n 1 ^ 2) = 16 := by
    norm_num [tA, Finset.sum_range_succ]
  have hs0 : (∑ d in Finset.range tA.D, tA.val 0 0 d ^ 2) = 25 := by
    norm_num [tA, Finset.sum_range_succ]
  have hs1 : (∑ d in Finset.range tA.D, tA.val 0 1 d ^ 2) = 0 := by
    norm_num [tA, Finset.sum_range_succ]
  have hvar : var_loss tA = -(7 / 4) := by
    rw [var_loss]
    rw [show (∑ b in Finset.range tA.B, ∑ d in Finset.range tA.D,
        Real.sqrt (∑ n in Finset.range tA.T, tA.val b n d ^ 2))
        = Real.sqrt 9 + Real.sqrt 16 by
      rw [show tA.B = 1 from rfl, show tA.D = 2 from rfl]
      rw [Finset.sum_range_one, Finset.sum_range_succ, Finset.sum_range_one, h00, h01]]
    rw [show (9 : ℝ) = 3 ^ 2 by norm_num, Real.sqrt_sq (by norm_num : (0:ℝ) ≤ 3)]
    rw [show (16 : ℝ) = 4 ^ 2 by norm_num, Real.sqrt_sq (by norm_num : (0:ℝ) ≤ 4)]
    norm_num [Tensor3.numel, tA]
  have hspec : variance_reward_spec tA = -(5 / 4) := by
    rw [variance_reward_spec]
    rw [show (∑ b in Finset.range tA.B, ∑ n in Finset.range tA.T,
        Real.sqrt (∑ d in Finset.range tA.D, tA.val b n d ^ 2))
        = Real.sqrt 25 + Real.sqrt 0 by
      rw [show tA.B = 1 from rfl, show tA.T = 2 from rfl]
      rw [Finset.sum_range_one, Finset.sum_range_succ, Finset.sum_range_one, hs0, hs1]]
    rw [show (25 : ℝ) = 5 ^ 2 by norm_num, Real.sqrt_sq (by norm_num : (0:ℝ) ≤ 5)]
    rw [Real.sqrt_zero]
    norm_num [Tensor3.numel, tA]
  refine ⟨?_, ?_, by norm_num⟩
  · rw [show cust_loss tA tA 0 1
        = Except.ok (mse_loss tA tA + 0 * cont_loss tA + 1 * var_loss tA) by
      simp only [cust_loss]
      rw [if_neg (by decide : ¬tA.T < 2)]]
    rw [hmse, hvar]
    norm_num
  · rw [hmse, hspec]
    norm_num

/-- Claim C7, amended: with identical output and target the
reconstruction term is exactly zero, so for `T ≥ 2` the loss collapses
to `alpha * cont_loss + beta * var_loss`; the continuity contribution is
not `alpha * 0` in general, because the continuity term depends only on
`output` and does not vanish for non-constant trajectories. -/
theorem self_loss_eq_cont_plus_var (output : Tensor3) (alpha beta : ℝ)
    (h : 2 ≤ output.T) :
    cust_loss output output alpha beta
      = Except.ok (alpha * cont_loss output + beta * var_loss output)
    ∧ mse_loss output output = 0 := by
  have hm : mse_loss output output = 0 := by
    simp [mse_loss]
  refine ⟨?_, hm⟩
  simp [cust_loss, Nat.not_lt.mpr h, hm]

/-- A `[1, 2, 1]` tensor with time series `0, 1`. -/
noncomputable def tB : Tensor3 := ⟨1, 2, 1, fun _ n _ => if n = 1 then 1 else 0⟩

/-- Witness for `self_loss_eq_cont_plus_var` at `tB`, `alpha = 1`,
`beta = 2`. -/
theorem self_loss_eq_cont_plus_var_witness :
    2 ≤ tB.T ∧ cust_loss tB tB 1 2
      = Except.ok (1 * cont_loss tB + 2 * var_loss tB) :=
  ⟨by decide, (self_loss_eq_cont_plus_var tB 1 2 (by decide)).1⟩

/-- Claim C7, counterexample to the claim as stated: on the non-constant
trajectory `tB` with `alpha = 1`, `beta = 0`, the loss at identical
output and target is the continuity contribution `1/200 ≠ 0`, not
`beta` times the variance-reward term (which is `0` here since
`beta = 0`). -/
theorem self_loss_continuity_not_zero :
    cust_loss tB tB 1 0 = Except.ok (1 / 200)
    ∧ cust_loss tB tB 1 0 ≠ Except.ok (0 * variance_reward_spec tB) := by
  have hm : mse_loss tB tB = 0 := by
    simp [mse_loss]
  have hc : cont_loss tB = 1 / 200 := by
    rw [cont_loss]
    rw [show tB.T = 2 from rfl, show tB.B = 1 from rfl, show tB.D = 1 from rfl]
    norm_num [tB, Tensor3.numel, Finset.sum_range_one]
  have hv : cust_loss tB tB 1 0 = Except.ok (1 / 200) := by
    rw [show cust_loss tB tB 1 0
        = Except.ok (mse_loss tB tB + 1 * cont_loss tB + 0 * var_loss tB) by
      simp only [cust_loss]
      rw [if_neg (by decide : ¬tB.T < 2)]]
    rw [hm, hc]
    norm_num
  refine ⟨hv, ?_⟩
  rw [hv]
  intro hcontra
  have : (1 / 200 : ℝ) = 0 * variance_reward_spec tB := by
    exact Except.ok.inj hcontra
  rw [zero_mul] at this
  norm_num at this

/-! ### The epoch runners `train_epoch` and `eval_epoch` -/

/-- Observable actions performed by the epoch runners: clearing gradients
(`optim.zero_grad()`), a model forward pass (`model(...)`; the Boolean
records whether gradient computation was enabled, i.e. whether the call
happened outside `torch.no_grad()`), a backward pass (`loss.backward()`)
and an optimizer step (`optim.step()`). -/
inductive Event where
  | zeroGrad : Event
  | forward : Bool → Event
  | backward : Event
  | optStep : Event
deriving DecidableEq

/-- The run configuration: the fields of the argparse namespace `opt`
that the modelled code reads.  `save_model` and `log` are `none` when
the corresponding option is falsy. -/
structure Opts where
  model : String
  alpha : ℝ
  beta : ℝ
  epoch : ℕ
  save_model : Option String
  save_mode : String
  save_interval : ℕ
  log : Option String

/-- The model and the optimizer as the epoch runners see them, over an
abstract example type `Ex` (the `(src_seq, src_len, tgt_seq)` tuples)
and parameter-state type `P` (the model's `state_dict`).
`fwdT` is the transformer call `model(opt, src_seq, tgt_seq, device)`,
`fwdS` the seq2pos call `model(opt, src_seq, src_len, tgt_seq, device)`;
both return the `(pred, ans)` pair fed to `cust_loss`.  `update` is the
net effect on the parameters of `loss.backward()` followed by
`optim.step()` for one example; `stepNoGrad` is an `optim.step()` issued
right after `optim.zero_grad()` with no backward pass in between. -/
structure ModelAdapter (Ex P : Type) where
  fwdT : Opts → P → Ex → Tensor3 × Tensor3
  fwdS : Opts → P → Ex → Tensor3 × Tensor3
  update : P → Ex → P
  stepNoGrad : P → P

/-- The state of the inner per-batch loop of an epoch runner:
`batchLoss` and `nMotion` are the accumulators of train.py lines
120-121 / 148-149, `params` the current model parameters, `err` the
exception propagating out of the loop if one was raised. -/
structure BatchOut (P : Type) where
  trace : List Event
  batchLoss : ℝ
  nMotion : ℕ
  params : P
  err : Option PyError

/-- The result of a whole epoch: the trace of actions, the final model
parameters and either the accumulated `total_loss` or the exception that
aborted the epoch. -/
structure EpochOut (P : Type) where
  trace : List Event
  params : P
  result : Except PyError ℝ

/-- The inner loop of `train_epoch` (train.py lines 150-170) over one
batch.  Per example: `optim.zero_grad()`; dispatch on `opt.model`; in a
recognized branch a forward pass, `cust_loss` (whose exception, if any,
propagates before `loss.backward()` runs), backward and `optim.step()`,
then `batch_loss += loss.item()` and `n_motion += 1`.  When `opt.model`
is neither `"transformer"` nor `"seq2pos"` both branches are skipped,
`optim.step()` still executes, and `batch_loss += loss.item()` raises
`UnboundLocalError` because the local `loss` was never assigned. -/
noncomputable def runTrainBatch {Ex P : Type} (M : ModelAdapter Ex P) (opt : Opts) :
    List Ex → ℝ → ℕ → P → BatchOut P
  | [], bl, n, p => ⟨[], bl, n, p, none⟩
  | ex :: rest, bl, n, p =>
    if opt.model = "transformer" then
      match cust_loss (M.fwdT opt p ex).1 (M.fwdT opt p ex).2 opt.alpha opt.beta with
      | Except.error e => ⟨[Event.zeroGrad, Event.forward true], bl, n, p, some e⟩
      | Except.ok l =>
        let out := runTrainBatch M opt rest (bl + l) (n + 1) (M.update p ex)
        { out with trace :=
            Event.zeroGrad :: Event.forward true :: Event.backward :: Event.optStep :: out.trace }
    else if opt.model = "seq2pos" then
      match cust_loss (M.fwdS opt p ex).1 (M.fwdS opt p ex).2 opt.alpha opt.beta with
      | Except.error e => ⟨[Event.zeroGrad, Event.forward true], bl, n, p, some e⟩
      | Except.ok l =>
        let out := runTrainBatch M opt rest (bl + l) (n + 1) (M.update p ex)
        { out with trace :=
            Event.zeroGrad :: Event.forward true :: Event.backward :: Event.optStep :: out.trace }
    else
      ⟨[Event.zeroGrad, Event.optStep], bl, n, M.stepNoGrad p,
        some (PyError.unboundLocalError ("loss"))⟩

/-- The outer loop of `train_epoch` (train.py lines 146-174): for each
batch run the inner loop, then `total_loss += batch_loss / n_motion` —
which raises `ZeroDivisionError` when `n_motion = 0` (both accumulators
are Python ints there, and integer `0 / 0` raises). -/
noncomputable def runTrainEpoch {Ex P : Type} (M : ModelAdapter Ex P) (opt : Opts) :
    List (List Ex) → ℝ → P → EpochOut P
  | [], tl, p => ⟨[], p, Except.ok tl⟩
  | b :: rest, tl, p =>
    let bo := runTrainBatch M opt b 0 0 p
    match bo.err with
    | some e => ⟨bo.trace, bo.params, Except.error e⟩
    | none =>
      if bo.nMotion = 0 then ⟨bo.trace, bo.params, Except.error PyError.zeroDivisionError⟩
      else
        let eo := runTrainEpoch M opt rest (tl + bo.batchLoss / (bo.nMotion : ℝ)) bo.params
        ⟨bo.trace ++ eo.trace, eo.params, eo.result⟩

/-- `train_epoch(model, training_data, optim, device, opt)` (train.py
lines 143-174). -/
noncomputable def train_epoch {Ex P : Type} (M : ModelAdapter Ex P)
    (training_data : List (List Ex)) (opt : Opts) (p : P) : EpochOut P :=
  runTrainEpoch M opt training_data 0 p

/-- The inner loop of `eval_epoch` (train.py lines 122-137) over one
batch, executed under `torch.no_grad()`: per example a forward pass with
gradients disabled and `cust_loss`; no `zero_grad`, no backward, no
optimizer step.  With an unrecognized `opt.model` both branches are
skipped and the example contributes nothing (the dispatch is a silent
per-example no-op there). -/
noncomputable def runEvalBatch {Ex P : Type} (M : ModelAdapter Ex P) (opt : Opts) :
    List Ex → ℝ → ℕ → P → BatchOut P
  | [], bl, n, p => ⟨[], bl, n, p, none⟩
  | ex :: rest, bl, n, p =>
    if opt.model = "transformer" then
      match cust_loss (M.fwdT opt p ex).1 (M.fwdT opt p ex).2 opt.alpha opt.beta with
      | Except.error e => ⟨[Event.forward false], bl, n, p, some e⟩
      | Except.ok l =>
        let out := runEvalBatch M opt rest (bl + l) (n + 1) p
        { out with trace := Event.forward false :: out.trace }
    else if opt.model = "seq2pos" then
      match cust_loss (M.fwdS opt p ex).1 (M.fwdS opt p ex).2 opt.alpha opt.beta with
      | Except.error e => ⟨[Event.forward false], bl, n, p, some e⟩
      | Except.ok l =>
        let out := runEvalBatch M opt rest (bl + l) (n + 1) p
        { out with trace := Event.forward false :: out.trace }
    else
      runEvalBatch M opt rest bl n p

/-- The outer loop of `eval_epoch` (train.py lines 117-140), with the
same `total_loss += batch_loss / n_motion` accumulation and the same
`ZeroDivisionError` on `n_motion = 0`. -/
noncomputable def runEvalEpoch {Ex P : Type} (M : ModelAdapter Ex P) (opt : Opts) :
    List (List Ex) → ℝ → P → EpochOut P
  | [], tl, p => ⟨[], p, Except.ok tl⟩
  | b :: rest, tl, p =>
    let bo := runEvalBatch M opt b 0 0 p
    match bo.err with
    | some e => ⟨bo.trace, bo.params, Except.error e⟩
    | none =>
      if bo.nMotion = 0 then ⟨bo.trace, bo.params, Except.error PyError.zeroDivisionError⟩
      else
        let eo := runEvalEpoch M opt rest (tl + bo.batchLoss / (bo.nMotion : ℝ)) bo.params
        ⟨bo.trace ++ eo.trace, eo.params, eo.result⟩

/-- `eval_epoch(model, validation_data, device, opt)` (train.py lines
114-140). -/
noncomputable def eval_epoch {Ex P : Type} (M : ModelAdapter Ex P)
    (validation_data : List (List Ex)) (opt : Opts) (p : P) : EpochOut P :=
  runEvalEpoch M opt validation_data 0 p

/-- Inner-loop invariant of `eval_epoch` when the dispatch tag is
`"transformer"` and every example's loss evaluates to `f ex`: the batch
accumulators collect the sum of the per-example losses and the example
count, and the parameters are untouched. -/
lemma runEvalBatch_sum {Ex P : Type} (M : ModelAdapter Ex P) (opt : Opts) (f : Ex → ℝ)
    (hm : opt.model = "transformer")
    (hf : ∀ (q : P) (ex : Ex),
      cust_loss (M.fwdT opt q ex).1 (M.fwdT opt q ex).2 opt.alpha opt.beta
        = Except.ok (f ex))
    (b : List Ex) :
    ∀ (bl : ℝ) (n : ℕ) (p : P),
      (runEvalBatch M opt b bl n p).err = none
      ∧ (runEvalBatch M opt b bl n p).batchLoss = bl + (b.map f).sum
      ∧ (runEvalBatch M opt b bl n p).nMotion = n + b.length
      ∧ (runEvalBatch M opt b bl n p).params = p := by
  induction b with
  | nil => intro bl n p; simp [runEvalBatch]
  | cons ex rest ih =>
    intro bl n p
    simp only [runEvalBatch]
    rw [if_pos hm, hf p ex]
    obtain ⟨ih1, ih2, ih3, ih4⟩ := ih (bl + f ex) (n + 1) p
    refine ⟨ih1, ?_, ?_, ih4⟩
    · rw [ih2]; simp; ring
    · rw [ih3]; simp; omega

/-- Inner-loop invariant of `train_epoch` in the same situation; the
final parameters are whatever the per-example optimizer steps produced. -/
lemma runTrainBatch_sum {Ex P : Type} (M : ModelAdapter Ex P) (opt : Opts) (f : Ex → ℝ)
    (hm : opt.model = "transformer")
    (hf : ∀ (q : P) (ex : Ex),
      cust_loss (M.fwdT opt q ex).1 (M.fwdT opt q ex).2 opt.alpha opt.beta
        = Except.ok (f ex))
    (b : List Ex) :
    ∀ (bl : ℝ) (n : ℕ) (p : P),
      (runTrainBatch M opt b bl n p).err = none
      ∧ (runTrainBatch M opt b bl n p).batchLoss = bl + (b.map f).sum
      ∧ (runTrainBatch M opt b bl n p).nMotion = n + b.length := by
  induction b with
  | nil => intro bl n p; simp [runTrainBatch]
  | cons ex rest ih =>
    intro bl n p
    simp only [runTrainBatch]
    rw [if_pos hm, hf p ex]
    obtain ⟨ih1, ih2, ih3⟩ := ih (bl + f ex) (n + 1) (M.update p ex)
    refine ⟨ih1, ?_, ?_⟩
    · rw [ih2]; simp; ring
    · rw [ih3]; simp; omega

/-- Outer-loop invariant of `eval_epoch`: over non-empty batches with
per-example losses `f`, the returned total is the starting total plus
the sum of the per-batch means, and the parameters are untouched. -/
lemma runEvalEpoch_sum {Ex P : Type} (M : ModelAdapter Ex P) (opt : Opts) (f : Ex → ℝ)
    (hm : opt.model = "transformer")
    (hf : ∀ (q : P) (ex : Ex),
      cust_loss (M.fwdT opt q ex).1 (M.fwdT opt q ex).2 opt.alpha opt.beta
        = Except.ok (f ex))
    (ds : List (List Ex)) (hne : ∀ b ∈ ds, b ≠ []) :
    ∀ (tl : ℝ) (p : P),
      (runEvalEpoch M opt ds tl p).result
        = Except.ok (tl + (ds.map fun b => (b.map f).sum / (b.length : ℝ)).sum)
      ∧ (runEvalEpoch M opt ds tl p).params = p := by
  induction ds with
  | nil => intro tl p; simp [runEvalEpoch]
  | cons b rest ih =>
    intro tl p
    obtain ⟨h1, h2, h3, h4⟩ := runEvalBatch_sum M opt f hm hf b 0 0 p
    have hb : b ≠ [] := hne b (by simp)
    have hlen : b.length ≠ 0 := fun hc => hb (List.length_eq_zero.mp hc)
    simp only [runEvalEpoch]
    rw [h1]
    simp only []
    rw [h2, h3, h4]
    rw [if_neg (show ¬(0 + b.length = 0) by simpa using hlen)]
    obtain ⟨ihr, ihp⟩ :=
      ih (fun b hbm => hne b (by simp [hbm]))
        (tl + (0 + (b.map f).sum) / ((0 + b.length : ℕ) : ℝ)) p
    refine ⟨?_, ihp⟩
    show (runEvalEpoch M opt rest
        (tl + (0 + (b.map f).sum) / ((0 + b.length : ℕ) : ℝ)) p).result = _
    rw [ihr]
    congr 1
    simp only [List.map_cons, List.sum_cons]
    push_cast
    ring

/-- Outer-loop invariant of `train_epoch` in the same situation. -/
lemma runTrainEpoch_sum {Ex P : Type} (M : ModelAdapter Ex P) (opt : Opts) (f : Ex → ℝ)
    (hm : opt.model = "transformer")
    (hf : ∀ (q : P) (ex : Ex),
      cust_loss (M.fwdT opt q ex).1 (M.fwdT opt q ex).2 opt.alpha opt.beta
        = Except.ok (f ex))
    (ds : List (List Ex)) (hne : ∀ b ∈ ds, b ≠ []) :
    ∀ (tl : ℝ) (p : P),
      (runTrainEpoch M opt ds tl p).result
        = Except.ok (tl + (ds.map fun b => (b.map f).sum / (b.length : ℝ)).sum) := by
  induction ds with
  | nil => intro tl p; simp [runTrainEpoch]
  | cons b rest ih =>
    intro tl p
    obtain ⟨h1, h2, h3⟩ := runTrainBatch_sum M opt f hm hf b 0 0 p
    have hb : b ≠ [] := hne b (by simp)
    have hlen : b.length ≠ 0 := fun hc => hb (List.length_eq_zero.mp hc)
    simp only [runTrainEpoch]
    rw [h1]
    simp only []
    rw [h2, h3]
    rw [if_neg (show ¬(0 + b.length = 0) by simpa using hlen)]
    have ihr :=
      ih (fun b hbm => hne b (by simp [hbm]))
        (tl + (0 + (b.map f).sum) / ((0 + b.length : ℕ) : ℝ))
        (runTrainBatch M opt b 0 0 p).params
    show (runTrainEpoch M opt rest
        (tl + (0 + (b.map f).sum) / ((0 + b.length : ℕ) : ℝ))
        (runTrainBatch M opt b 0 0 p).params).result = _
    rw [ihr]
    congr 1
    simp only [List.map_cons, List.sum_cons]
    push_cast
    ring

/-- Claim C1, amended: for an epoch over non-empty batches whose
examples have losses `f`, both runners append each batch's
`batch_loss / n_motion` to `total_loss` and return the accumulated
total as is — the SUM of the per-batch means, with no final division by
the number of batches (train.py lines 138-140 and 172-174 return
`total_loss` directly). -/
theorem epoch_loss_is_sum_of_batch_means {Ex P : Type} (M : ModelAdapter Ex P)
    (opt : Opts) (f : Ex → ℝ) (data : List (List Ex)) (p : P)
    (hm : opt.model = "transformer")
    (hf : ∀ (q : P) (ex : Ex),
      cust_loss (M.fwdT opt q ex).1 (M.fwdT opt q ex).2 opt.alpha opt.beta
        = Except.ok (f ex))
    (hne : ∀ b ∈ data, b ≠ []) :
    (eval_epoch M data opt p).result
      = Except.ok ((data.map fun b => (b.map f).sum / (b.length : ℝ)).sum)
    ∧ (train_epoch M data opt p).result
      = Except.ok ((data.map fun b => (b.map f).sum / (b.length : ℝ)).sum) := by
  constructor
  · have h := (runEvalEpoch_sum M opt f hm hf data hne 0 p).1
    rw [eval_epoch, h, zero_add]
  · have h := runTrainEpoch_sum M opt f hm hf data hne 0 p
    rw [train_epoch, h, zero_add]

/-- A `[1, 2, 1]` trajectory with time series `a, b`. -/
noncomputable def mkT (a b : ℝ) : Tensor3 := ⟨1, 2, 1, fun _ n _ => if n = 0 then a else b⟩

/-- With zero weights, `cust_loss` against the zero target is just the
mean squared error `(a² + b²) / 2`. -/
lemma cust_loss_mkT (a b : ℝ) :
    cust_loss (mkT a b) (mkT 0 0) 0 0 = Except.ok ((a ^ 2 + b ^ 2) / 2) := by
  rw [show cust_loss (mkT a b) (mkT 0 0) 0 0
      = Except.ok (mse_loss (mkT a b) (mkT 0 0) + 0 * cont_loss (mkT a b)
          + 0 * var_loss (mkT a b)) by
    simp only [cust_loss]
    rw [show (mkT a b).T = 2 from rfl]
    rw [if_neg (Nat.lt_irrefl 2)]]
  rw [zero_mul, zero_mul, add_zero, add_zero]
  congr 1
  rw [mse_loss]
  rw [show (mkT a b).B = 1 from rfl, show (mkT a b).T = 2 from rfl,
    show (mkT a b).D = 1 from rfl]
  norm_num [mkT, Tensor3.numel, Finset.sum_range_succ, Finset.sum_range_one]

/-- First time-step values of the three concrete examples (losses 1, 2, 4). -/
noncomputable def ovA : ℕ → ℝ :=
  fun i => if i = 0 then 1 else if i = 1 then 2 else if i = 2 then 2 else 0

/-- Second time-step values of the three concrete examples. -/
noncomputable def ovB : ℕ → ℝ :=
  fun i => if i = 0 then 1 else if i = 1 then 0 else if i = 2 then 2 else 0

/-- A concrete model adapter over example indices, predicting `mkT (ovA i) (ovB i)`
with zero target. -/
noncomputable def M1 : ModelAdapter ℕ Unit :=
  ⟨fun _ _ i => (mkT (ovA i) (ovB i), mkT 0 0),
   fun _ _ i => (mkT (ovA i) (ovB i), mkT 0 0),
   fun _ _ => (), fun _ => ()⟩

/-- A transformer configuration with zero loss weights. -/
noncomputable def opt1 : Opts := ⟨"transformer", 0, 0, 0, none, "", 0, none⟩

/-- Per-example losses of `M1` under `opt1`. -/
noncomputable def f1 : ℕ → ℝ := fun i => (ovA i ^ 2 + ovB i ^ 2) / 2

/-- Every example of `M1` has loss `f1 ex`. -/
lemma hf1 : ∀ (q : Unit) (ex : ℕ),
    cust_loss (M1.fwdT opt1 q ex).1 (M1.fwdT opt1 q ex).2 opt1.alpha opt1.beta
      = Except.ok (f1 ex) :=
  fun _ ex => cust_loss_mkT (ovA ex) (ovB ex)

/-- Claim C1, counterexample to the claim as stated: on two batches with
example losses `[1, 2]` and `[4]` the epoch runner returns
`1.5 + 4 = 5.5`, not the claimed per-batch-then-averaged mean
`(1.5 + 4) / 2 = 2.75`. -/
theorem epoch_loss_not_mean_of_batch_means :
    (eval_epoch M1 [[0, 1], [2]] opt1 ()).result = Except.ok (11 / 2)
    ∧ (11 / 2 : ℝ) ≠ (3 / 2 + 4) / 2 := by
  constructor
  · have h := (runEvalEpoch_sum M1 opt1 f1 rfl hf1 [[0, 1], [2]] (by decide) 0 ()).1
    rw [eval_epoch, h]
    norm_num [f1, ovA, ovB]
  · norm_num

/-- Witness for `epoch_loss_is_sum_of_batch_means` on the concrete
two-batch run. -/
theorem epoch_loss_is_sum_of_batch_means_witness :
    (train_epoch M1 [[0, 1], [2]] opt1 ()).result
      = Except.ok (([[0, 1], [2]].map fun b => (b.map f1).sum / (b.length : ℝ)).sum) :=
  (epoch_loss_is_sum_of_batch_means M1 opt1 f1 [[0, 1], [2]] () rfl hf1 (by decide)).2

/-- The two model families the `main` dispatch recognizes. -/
inductive ModelKind where
  | transformer : ModelKind
  | seq2pos : ModelKind
deriving DecidableEq

/-- The model-construction dispatch of `main` (train.py lines 287-314,
and identically lines 248-275 on the resume path): `if opt.model ==
'transformer'`, `elif opt.model == 'seq2pos'`, `else` prints
`[ERROR] undefined model.` and execution continues, so the following
`optim.Adam(model.parameters(), lr=opt.lr)` raises `UnboundLocalError`
on the never-assigned local `model`. -/
def buildModel (opt : Opts) : Except PyError ModelKind :=
  if opt.model = "transformer" then Except.ok ModelKind.transformer
  else if opt.model = "seq2pos" then Except.ok ModelKind.seq2pos
  else Except.error (PyError.unboundLocalError ("model"))

/-- With an unrecognized tag, `runEvalBatch` silently skips every
example. -/
lemma runEvalBatch_unknown {Ex P : Type} (M : ModelAdapter Ex P) (opt : Opts)
    (h1 : opt.model ≠ "transformer") (h2 : opt.model ≠ "seq2pos") (b : List Ex) :
    ∀ (bl : ℝ) (n : ℕ) (p : P), runEvalBatch M opt b bl n p = ⟨[], bl, n, p, none⟩ := by
  induction b with
  | nil => intro bl n p; simp [runEvalBatch]
  | cons ex rest ih =>
    intro bl n p
    simp only [runEvalBatch]
    rw [if_neg h1, if_neg h2, ih]

/-- Claim C8: for a model selector that is neither `"transformer"` nor
`"seq2pos"` the code fails, but not with the specified
`UnknownModelError`: model construction prints an error message, keeps
going and dies with `UnboundLocalError` on `model`; inside a training
epoch the dispatch is skipped, `optim.step()` still runs, and
`batch_loss += loss.item()` dies with `UnboundLocalError` on `loss`;
inside an evaluation epoch each example is silently skipped and the
batch dies with `ZeroDivisionError` at `batch_loss / n_motion`. -/
theorem unknown_model_unbound_local {Ex P : Type} (M : ModelAdapter Ex P) (opt : Opts)
    (ex : Ex) (exs : List Ex) (bs : List (List Ex)) (p : P)
    (h1 : opt.model ≠ "transformer") (h2 : opt.model ≠ "seq2pos") :
    buildModel opt = Except.error (PyError.unboundLocalError ("model"))
    ∧ (train_epoch M ((ex :: exs) :: bs) opt p).result
        = Except.error (PyError.unboundLocalError ("loss"))
    ∧ (train_epoch M ((ex :: exs) :: bs) opt p).trace = [Event.zeroGrad, Event.optStep]
    ∧ (eval_epoch M ((ex :: exs) :: bs) opt p).result
        = Except.error PyError.zeroDivisionError := by
  have hbuild : buildModel opt = Except.error (PyError.unboundLocalError ("model")) := by
    rw [buildModel, if_neg h1, if_neg h2]
  have htb : runTrainBatch M opt (ex :: exs) 0 0 p
      = ⟨[Event.zeroGrad, Event.optStep], 0, 0, M.stepNoGrad p,
          some (PyError.unboundLocalError ("loss"))⟩ := by
    simp only [runTrainBatch]
    rw [if_neg h1, if_neg h2]
  have heb : runEvalBatch M opt (ex :: exs) 0 0 p = ⟨[], 0, 0, p, none⟩ :=
    runEvalBatch_unknown M opt h1 h2 (ex :: exs) 0 0 p
  refine ⟨hbuild, ?_, ?_, ?_⟩
  · rw [train_epoch]
    simp only [runTrainEpoch]
    rw [htb]
  · rw [train_epoch]
    simp only [runTrainEpoch]
    rw [htb]
  · rw [eval_epoch]
    simp only [runEvalEpoch]
    rw [heb]
    rfl

/-- An unrecognized configuration tag. -/
noncomputable def optFoo : Opts := ⟨"foo", 0, 0, 0, none, "", 0, none⟩

/-- A trivial adapter over unit examples and parameters. -/
noncomputable def MU : ModelAdapter Unit Unit :=
  ⟨fun _ _ _ => (tOne, tOne), fun _ _ _ => (tOne, tOne), fun _ _ => (), fun _ => ()⟩

/-- Witness for `unknown_model_unbound_local` at the concrete tag
`"foo"`. -/
theorem unknown_model_unbound_local_witness :
    buildModel optFoo = Except.error (PyError.unboundLocalError ("model"))
    ∧ (train_epoch MU [[()]] optFoo ()).result
        = Except.error (PyError.unboundLocalError ("loss")) :=
  ⟨(unknown_model_unbound_local MU optFoo () [] [] () (by decide) (by decide)).1,
   (unknown_model_unbound_local MU optFoo () [] [] () (by decide) (by decide)).2.1⟩

/-- `runEvalBatch` never changes the parameters and only ever records
gradient-disabled forward passes. -/
lemma runEvalBatch_pure {Ex P : Type} (M : ModelAdapter Ex P) (opt : Opts) (b : List Ex) :
    ∀ (bl : ℝ) (n : ℕ) (p : P),
      (runEvalBatch M opt b bl n p).params = p
      ∧ ((runEvalBatch M opt b bl n p).trace.all
          fun e => decide (e = Event.forward false)) = true := by
  induction b with
  | nil => intro bl n p; simp [runEvalBatch]
  | cons ex rest ih =>
    intro bl n p
    simp only [runEvalBatch]
    by_cases h1 : opt.model = "transformer"
    · rw [if_pos h1]
      cases hcl : cust_loss (M.fwdT opt p ex).1 (M.fwdT opt p ex).2 opt.alpha opt.beta with
      | error e => simp
      | ok l =>
        obtain ⟨ihp, iht⟩ := ih (bl + l) (n + 1) p
        simp [ihp, iht]
    · rw [if_neg h1]
      by_cases h2 : opt.model = "seq2pos"
      · rw [if_pos h2]
        cases hcl : cust_loss (M.fwdS opt p ex).1 (M.fwdS opt p ex).2 opt.alpha opt.beta with
        | error e => simp
        | ok l =>
          obtain ⟨ihp, iht⟩ := ih (bl + l) (n + 1) p
          simp [ihp, iht]
      · rw [if_neg h2]
        exact ih bl n p

/-- Claim C9: an evaluation epoch performs only gradient-disabled
forward passes — no `zero_grad`, no backward pass, no optimizer step —
and returns the model parameters exactly as it received them. -/
theorem eval_epoch_pure {Ex P : Type} (M : ModelAdapter Ex P)
    (data : List (List Ex)) (opt : Opts) (p : P) :
    ((eval_epoch M data opt p).trace.all
        fun e => decide (e = Event.forward false)) = true
    ∧ (eval_epoch M data opt p).params = p := by
  rw [eval_epoch]
  suffices h : ∀ (tl : ℝ) (q : P),
      ((runEvalEpoch M opt data tl q).trace.all
          fun e => decide (e = Event.forward false)) = true
      ∧ (runEvalEpoch M opt data tl q).params = q by
    exact ⟨(h 0 p).1, (h 0 p).2⟩
  induction data with
  | nil => intro tl q; simp [runEvalEpoch]
  | cons b rest ih =>
    intro tl q
    obtain ⟨hbp, hbt⟩ := runEvalBatch_pure M opt b 0 0 q
    simp only [runEvalEpoch]
    cases hbo : (runEvalBatch M opt b 0 0 q).err with
    | some e => simp [hbp, hbt]
    | none =>
      by_cases hn : (runEvalBatch M opt b 0 0 q).nMotion = 0
      · rw [if_pos hn]
        simp [hbp, hbt]
      · rw [if_neg hn]
        rw [hbp]
        obtain ⟨iht, ihp⟩ :=
          ih (tl + (runEvalBatch M opt b 0 0 q).batchLoss
              / ((runEvalBatch M opt b 0 0 q).nMotion : ℝ)) q
        simp [List.all_append, hbt, iht, ihp]

/-! ### The training orchestrator `train` and the resume logic of `main`

The orchestrator's own arithmetic is only accumulation and order
comparison of epoch losses, so losses are modelled as exact rationals
here.  The epoch runners it invokes are abstracted into two functions:
`runT`, standing for `train_epoch(model, training_data, optim, device,
opt)` (returning the updated parameters and either the epoch loss or
the exception it raised), and `runE`, standing for
`eval_epoch(model, validation_data, device, opt)` (which leaves the
parameters untouched, see `eval_epoch_pure`). -/

/-- A checkpoint as assembled in train.py lines 80-85:
`{'model': model.state_dict(), 'settings': opt, 'epoch': epoch_i}`. -/
structure Checkpoint (P : Type) where
  model : P
  settings : Opts
  epoch : ℕ

/-- The two log files; `none` models a file that does not exist, `some`
holds its lines. -/
structure LogFiles where
  trainLog : Option (List String)
  validLog : Option (List String)

/-- The observable state of a training run: the log filesystem, the two
historical loss lists (train.py lines 62-63), the checkpoint files
written so far (filename and content, in write order), the epoch
indices entered so far, and the model parameters. -/
structure RunSt (P : Type) where
  fs : LogFiles
  trainLossList : List ℚ
  validLossList : List ℚ
  saves : List (String × Checkpoint P)
  processed : List ℕ
  params : P

/-- Python's `max` over a list.  The orchestrator only applies it to a
list that contains the loss just appended, so the empty case (where
Python would raise `ValueError`) is unreachable; `0` stands in. -/
def pyMax : List ℚ → ℚ
  | [] => 0
  | x :: xs => xs.foldl max x

/-- One `'{epoch},{loss: 8.5f}'` log line (the numeric formatting is
abstracted to an exact rendering). -/
def logLine (e : ℕ) (l : ℚ) : String := toString e ++ "," ++ toString l

/-- Appending one line to each log file (train.py lines 106-111, both
files opened in mode 'a'). -/
def appendLogs (fs : LogFiles) (e : ℕ) (tl vl : ℚ) : LogFiles :=
  ⟨fs.trainLog.map (fun c => c ++ [logLine e tl]),
   fs.validLog.map (fun c => c ++ [logLine e vl])⟩

/-- train.py lines 51-60: when logging is configured, the two log files
are rewritten in mode 'w' with the single header row `epoch,loss` only
when they do not both already exist; otherwise they are left alone. -/
def initLogs (opt : Opts) (fs : LogFiles) : LogFiles :=
  match opt.log with
  | none => fs
  | some _ =>
    if fs.trainLog.isSome ∧ fs.validLog.isSome then fs
    else ⟨some [("epoch,loss")], some [("epoch,loss")]⟩

/-- The checkpoint-save decision of one epoch (train.py lines 87-104):
the (possibly empty) list of checkpoint files written this epoch.
`lossList` is `train_loss_list` as it stands at the guard on line 95,
i.e. with the current loss already appended (line 71). -/
def saveDecision {P : Type} (opt : Opts) (i : ℕ) (tl : ℚ) (lossList : List ℚ)
    (chk : Checkpoint P) : List (String × Checkpoint P) :=
  match opt.save_model with
  | none => []
  | some name =>
    if opt.save_mode = "all" then
      [(name ++ "_tr_loss_" ++ toString i ++ "_" ++ toString tl ++ ".chkpt", chk)]
    else if opt.save_mode = "best" then
      if tl ≤ pyMax lossList then [(name ++ ".chkpt", chk)] else []
    else if opt.save_mode = "interval" then
      if i % opt.save_interval = 0 ∧ i ≠ 0 then
        [(name ++ "_tr_loss_" ++ toString i ++ "_" ++ toString tl ++ ".chkpt", chk)]
      else []
    else []

/-- The body of one iteration of the epoch loop of `train` (train.py
lines 64-111): announce the epoch, run a training epoch (its exception,
if any, aborts the run), append the training loss, run a validation
epoch (same), append the validation loss, assemble the checkpoint from
the CURRENT parameters, settings and epoch index, apply the save
policy, and append one line to each log when logging is on. -/
def epochBody {P : Type} (runT : P → P × Except PyError ℚ) (runE : P → Except PyError ℚ)
    (opt : Opts) (i : ℕ) (st : RunSt P) : RunSt P × Option PyError :=
  let st0 : RunSt P := { st with processed := st.processed ++ [i] }
  let p1 := (runT st.params).1
  match (runT st.params).2 with
  | Except.error e => ({ st0 with params := p1 }, some e)
  | Except.ok tl =>
    let st1 : RunSt P :=
      { st0 with params := p1, trainLossList := st0.trainLossList ++ [tl] }
    match runE p1 with
    | Except.error e => (st1, some e)
    | Except.ok vl =>
      let st2 : RunSt P := { st1 with validLossList := st1.validLossList ++ [vl] }
      let chk : Checkpoint P := ⟨p1, opt, i⟩
      let st3 : RunSt P :=
        { st2 with saves := st2.saves ++ saveDecision opt i tl st2.trainLossList chk }
      let st4 : RunSt P :=
        if opt.log.isSome then { st3 with fs := appendLogs st3.fs i tl vl } else st3
      (st4, none)

/-- The epoch loop `for epoch_i in range(start_i, opt.epoch)` of `train`
(train.py line 64), by recursion on the number of remaining epochs; an
exception from an epoch aborts the whole loop. -/
def trainLoop {P : Type} (runT : P → P × Except PyError ℚ) (runE : P → Except PyError ℚ)
    (opt : Opts) : ℕ → ℕ → RunSt P → RunSt P × Option PyError
  | 0, _, st => (st, none)
  | n + 1, i, st =>
    let r := epochBody runT runE opt i st
    match r.2 with
    | some e => (r.1, some e)
    | none => trainLoop runT runE opt n (i + 1) r.1

/-- `train(model, training_data, validation_data, optim, device, opt,
start_i)` (train.py lines 45-111): set up the log files, then run the
epoch loop from `start_i` to `opt.epoch - 1`. -/
def train {P : Type} (runT : P → P × Except PyError ℚ) (runE : P → Except PyError ℚ)
    (opt : Opts) (p : P) (fs : LogFiles) (start_i : ℕ) : RunSt P × Option PyError :=
  trainLoop runT runE opt (opt.epoch - start_i) start_i
    ⟨initLogs opt fs, [], [], [], [], p⟩

/-- The resume branch of `main` (train.py lines 237-281): the checkpoint
supplies the parameters (`state = model_info['model']`, later
`model.load_state_dict(state)`) and the configuration
(`opt = model_info['settings']`); the epoch bound is extended to 601
(`opt.epoch = 601`); `start_i = model_info['epoch']` and training is
launched with `start_i = start_i + 1`. -/
def mainResume {P : Type} (chk : Checkpoint P) (runT : P → P × Except PyError ℚ)
    (runE : P → Except PyError ℚ) (fs : LogFiles) : RunSt P × Option PyError :=
  train runT runE { chk.settings with epoch := 601 } chk.model fs (chk.epoch + 1)

/-- The non-resume branch of `main` (train.py lines 283-318): training
starts at epoch 0 with freshly initialized parameters. -/
def mainFresh {P : Type} (opt : Opts) (p0 : P) (runT : P → P × Except PyError ℚ)
    (runE : P → Except PyError ℚ) (fs : LogFiles) : RunSt P × Option PyError :=
  train runT runE opt p0 fs 0

/-- A value appended last is never above the Python `max` of the list. -/
lemma le_pyMax_append (l : List ℚ) (x : ℚ) : x ≤ pyMax (l ++ [x]) := by
  cases l with
  | nil => simp [pyMax]
  | cons y ys =>
    show x ≤ ((ys ++ [x]).foldl max y)
    rw [List.foldl_append]
    exact le_max_right _ _

/-- Every checkpoint the save decision emits is the one assembled this
epoch. -/
lemma saveDecision_mem {P : Type} (opt : Opts) (i : ℕ) (tl : ℚ) (lossList : List ℚ)
    (chk : Checkpoint P) :
    ∀ c ∈ saveDecision opt i tl lossList chk, c.2 = chk := by
  intro c hc
  rcases h : opt.save_model with _ | name
  · simp only [saveDecision, h] at hc
    simp at hc
  · simp only [saveDecision, h] at hc
    by_cases h1 : opt.save_mode = "all"
    · rw [if_pos h1] at hc
      simp at hc
      rw [hc]
    · rw [if_neg h1] at hc
      by_cases h2 : opt.save_mode = "best"
      · rw [if_pos h2] at hc
        by_cases h3 : tl ≤ pyMax lossList
        · rw [if_pos h3] at hc
          simp at hc
          rw [hc]
        · rw [if_neg h3] at hc
          simp at hc
      · rw [if_neg h2] at hc
        by_cases h4 : opt.save_mode = "interval"
        · rw [if_pos h4] at hc
          by_cases h5 : i % opt.save_interval = 0 ∧ i ≠ 0
          · rw [if_pos h5] at hc
            simp at hc
            rw [hc]
          · rw [if_neg h5] at hc
            simp at hc
        · rw [if_neg h4] at hc
          simp at hc

/-- In save mode `best`, the guard `train_loss <= max(train_loss_list)`
is evaluated after the append of line 71, so it always holds and a
checkpoint is written. -/
lemma saveDecision_best {P : Type} (opt : Opts) (name : String) (i : ℕ) (tl : ℚ)
    (l : List ℚ) (chk : Checkpoint P)
    (hsm : opt.save_model = some name) (hbm : opt.save_mode = "best") :
    saveDecision opt i tl (l ++ [tl]) chk = [(name ++ ".chkpt", chk)] := by
  simp only [saveDecision, hsm]
  rw [if_neg (show ¬opt.save_mode = "all" by rw [hbm]; decide)]
  rw [if_pos hbm]
  rw [if_pos (le_pyMax_append l tl)]

/-- One successful epoch: the run continues, the epoch index and the
loss are recorded, the logs receive one line each when logging is on,
and the checkpoints written are exactly what the save policy decides on
the already-appended loss history. -/
lemma epochBody_ok {P : Type} (runT : P → P × Except PyError ℚ)
    (runE : P → Except PyError ℚ) (opt : Opts) (i : ℕ) (st : RunSt P) (tl vl : ℚ)
    (hT : (runT st.params).2 = Except.ok tl) (hE : runE (runT st.params).1 = Except.ok vl) :
    (epochBody runT runE opt i st).2 = none
    ∧ (epochBody runT runE opt i st).1.processed = st.processed ++ [i]
    ∧ (epochBody runT runE opt i st).1.fs
        = (if opt.log.isSome then appendLogs st.fs i tl vl else st.fs)
    ∧ (epochBody runT runE opt i st).1.saves
        = st.saves ++ saveDecision opt i tl (st.trainLossList ++ [tl])
            ⟨(runT st.params).1, opt, i⟩
    ∧ (epochBody runT runE opt i st).1.trainLossList = st.trainLossList ++ [tl]
    ∧ (epochBody runT runE opt i st).1.params = (runT st.params).1 := by
  simp only [epochBody]
  rw [hT, hE]
  simp only []
  by_cases hl : opt.log.isSome
  · rw [if_pos hl]
    simp [hl]
  · rw [if_neg hl]
    simp [hl]

/-- A training-epoch failure: the run aborts with that exception and
neither a checkpoint nor a log line is produced for the epoch. -/
lemma epochBody_err {P : Type} (runT : P → P × Except PyError ℚ)
    (runE : P → Except PyError ℚ) (opt : Opts) (i : ℕ) (st : RunSt P) (e : PyError)
    (he : (runT st.params).2 = Except.error e) :
    (epochBody runT runE opt i st).2 = some e
    ∧ (epochBody runT runE opt i st).1.saves = st.saves
    ∧ (epochBody runT runE opt i st).1.fs = st.fs
    ∧ (epochBody runT runE opt i st).1.trainLossList = st.trainLossList := by
  simp only [epochBody]
  rw [he]
  simp

/-- Over a stretch of epochs in which both runners succeed, the epoch
loop finishes, visits exactly the epochs `i, …, i + n - 1`, only
appends to the two (existing) log files, and every checkpoint it adds
carries the running configuration. -/
lemma trainLoop_ok {P : Type} (runT : P → P × Except PyError ℚ)
    (runE : P → Except PyError ℚ) (opt : Opts)
    (hT : ∀ q, ∃ v, (runT q).2 = Except.ok v)
    (hE : ∀ q, ∃ v, runE q = Except.ok v)
    (hlog : opt.log.isSome = true) :
    ∀ (n i : ℕ) (st : RunSt P) (A B : List String),
      st.fs.trainLog = some A → st.fs.validLog = some B →
      (trainLoop runT runE opt n i st).2 = none
      ∧ (trainLoop runT runE opt n i st).1.processed
          = st.processed ++ List.range' i n
      ∧ (∃ ta, (trainLoop runT runE opt n i st).1.fs.trainLog = some (A ++ ta))
      ∧ (∃ tb, (trainLoop runT runE opt n i st).1.fs.validLog = some (B ++ tb))
      ∧ (∀ c ∈ (trainLoop runT runE opt n i st).1.saves,
          c ∈ st.saves ∨ c.2.settings = opt) := by
  intro n
  induction n with
  | zero =>
    intro i st A B hA hB
    exact ⟨rfl, by simp [trainLoop], ⟨[], by simp [trainLoop, hA]⟩,
      ⟨[], by simp [trainLoop, hB]⟩, fun c hc => Or.inl hc⟩
  | succ n ih =>
    intro i st A B hA hB
    obtain ⟨tl, hTl⟩ := hT st.params
    obtain ⟨vl, hEl⟩ := hE (runT st.params).1
    obtain ⟨hb0, hb1, hb2, hb3, _, _⟩ := epochBody_ok runT runE opt i st tl vl hTl hEl
    have hstep : trainLoop runT runE opt (n + 1) i st
        = trainLoop runT runE opt n (i + 1) (epochBody runT runE opt i st).1 := by
      simp only [trainLoop]
      rw [hb0]
    have hA1 : (epochBody runT runE opt i st).1.fs.trainLog
        = some (A ++ [logLine i tl]) := by
      rw [hb2, if_pos hlog]
      simp [appendLogs, hA]
    have hB1 : (epochBody runT runE opt i st).1.fs.validLog
        = some (B ++ [logLine i vl]) := by
      rw [hb2, if_pos hlog]
      simp [appendLogs, hB]
    obtain ⟨r0, r1, ⟨ta, r2⟩, ⟨tb, r3⟩, r4⟩ :=
      ih (i + 1) (epochBody runT runE opt i st).1
        (A ++ [logLine i tl]) (B ++ [logLine i vl]) hA1 hB1
    rw [hstep]
    refine ⟨r0, ?_, ⟨[logLine i tl] ++ ta, by rw [r2, List.append_assoc]⟩,
      ⟨[logLine i vl] ++ tb, by rw [r3, List.append_assoc]⟩, ?_⟩
    · rw [r1, hb1, List.append_assoc]
      rfl
    · intro c hc
      rcases r4 c hc with h | h
      · rw [hb3] at h
        rcases List.mem_append.mp h with h1 | h1
        · exact Or.inl h1
        · refine Or.inr ?_
          have hck := saveDecision_mem opt i tl (st.trainLossList ++ [tl])
            ⟨(runT st.params).1, opt, i⟩ c h1
          rw [hck]
      · exact Or.inr h

/-- In save mode `best` with saving enabled and succeeding runners, the
epoch loop writes exactly one checkpoint per epoch, tagged with that
epoch's index. -/
lemma trainLoop_best {P : Type} (runT : P → P × Except PyError ℚ)
    (runE : P → Except PyError ℚ) (opt : Opts) (name : String)
    (hsm : opt.save_model = some name) (hbm : opt.save_mode = "best")
    (hT : ∀ q, ∃ v, (runT q).2 = Except.ok v)
    (hE : ∀ q, ∃ v, runE q = Except.ok v) :
    ∀ (n i : ℕ) (st : RunSt P),
      (trainLoop runT runE opt n i st).2 = none
      ∧ (trainLoop runT runE opt n i st).1.saves.map (fun c => c.2.epoch)
          = st.saves.map (fun c => c.2.epoch) ++ List.range' i n := by
  intro n
  induction n with
  | zero =>
    intro i st
    exact ⟨rfl, by simp [trainLoop]⟩
  | succ n ih =>
    intro i st
    obtain ⟨tl, hTl⟩ := hT st.params
    obtain ⟨vl, hEl⟩ := hE (runT st.params).1
    obtain ⟨hb0, _, _, hb3, _, _⟩ := epochBody_ok runT runE opt i st tl vl hTl hEl
    have hstep : trainLoop runT runE opt (n + 1) i st
        = trainLoop runT runE opt n (i + 1) (epochBody runT runE opt i st).1 := by
      simp only [trainLoop]
      rw [hb0]
    obtain ⟨r0, r1⟩ := ih (i + 1) (epochBody runT runE opt i st).1
    rw [hstep]
    refine ⟨r0, ?_⟩
    rw [r1, hb3,
      saveDecision_best opt name i tl st.trainLossList
        ⟨(runT st.params).1, opt, i⟩ hsm hbm]
    rw [List.map_append, List.append_assoc]
    rfl

/-- Claim C10: in the code's save mode `best` with saving enabled, the
guard `train_loss <= max(train_loss_list)` (train.py line 95) is
evaluated after line 71 has appended the current loss to
`train_loss_list`, so it holds at every epoch and a checkpoint file is
written every epoch of the run, regardless of the loss values. -/
theorem best_mode_guard_always_saves {P : Type} (runT : P → P × Except PyError ℚ)
    (runE : P → Except PyError ℚ) (opt : Opts) (name : String) (p : P)
    (fs : LogFiles) (start_i : ℕ)
    (hsm : opt.save_model = some name) (hbm : opt.save_mode = "best")
    (hT : ∀ q, ∃ v, (runT q).2 = Except.ok v)
    (hE : ∀ q, ∃ v, runE q = Except.ok v) :
    (train runT runE opt p fs start_i).2 = none
    ∧ (train runT runE opt p fs start_i).1.saves.map (fun c => c.2.epoch)
        = List.range' start_i (opt.epoch - start_i) := by
  obtain ⟨h0, h1⟩ := trainLoop_best runT runE opt name hsm hbm hT hE
    (opt.epoch - start_i) start_i ⟨initLogs opt fs, [], [], [], [], p⟩
  exact ⟨h0, by rw [train, h1]; rfl⟩

/-- The training-loss sequence `5, 3, 4, 2` indexed by epoch. -/
def seqLoss : ℕ → ℚ :=
  fun i => if i = 0 then 5 else if i = 1 then 3 else if i = 2 then 4 else 2

/-- An abstracted `train_epoch` whose parameter state counts epochs and
whose losses follow `seqLoss`. -/
def runT52 : ℕ → ℕ × Except PyError ℚ := fun q => (q + 1, Except.ok (seqLoss q))

/-- An abstracted `eval_epoch` with constant zero validation loss. -/
def runE0 : ℕ → Except PyError ℚ := fun _ => Except.ok 0

/-- An abstracted `train_epoch` that raises on its first batch. -/
def runTErr : ℕ → ℕ × Except PyError ℚ := fun q => (q, Except.error PyError.runtimeError)

/-- A 4-epoch run in save mode `best` with logging off. -/
noncomputable def optBest4 : Opts := ⟨"transformer", 0, 0, 4, some ("model"), "best", 10, none⟩

/-- An initial run state with empty history and no log files. -/
def st0 : RunSt ℕ := ⟨⟨none, none⟩, [], [], [], [], 0⟩

/-- Witness for `best_mode_guard_always_saves` on the concrete loss
sequence `[5, 3, 4, 2]`. -/
theorem best_mode_guard_always_saves_witness :
    ((train runT52 runE0 optBest4 0 ⟨none, none⟩ 0).1.saves.map fun c => c.2.epoch)
      = [0, 1, 2, 3] := by
  rw [(best_mode_guard_always_saves runT52 runE0 optBest4 ("model") 0 ⟨none, none⟩ 0
    rfl rfl (fun q => ⟨seqLoss q, rfl⟩) (fun _ => ⟨0, rfl⟩)).2]
  rfl

/-- Claim C2: the code's `best` mode on the training-loss sequence
`[5.0, 3.0, 4.0, 2.0]`.  Claimed behavior: checkpoints at epochs 0, 1
and 3 only.  Actual behavior: the vacuous guard writes a checkpoint at
every epoch, including epoch 2 whose loss 4.0 is not a new minimum. -/
theorem best_mode_code_saves_on_5342 :
    (train runT52 runE0 optBest4 0 ⟨none, none⟩ 0).1.trainLossList = [5, 3, 4, 2]
    ∧ ((train runT52 runE0 optBest4 0 ⟨none, none⟩ 0).1.saves.map fun c => c.2.epoch)
        = [0, 1, 2, 3]
    ∧ [0, 1, 2, 3] ≠ [0, 1, 3] := by
  refine ⟨?_, ?_, by decide⟩ <;> rfl

/-- With a recognized tag and well-defined example losses, an epoch over
batches of which one is empty reaches the empty batch and dies there
with `ZeroDivisionError` (training variant). -/
lemma runTrainEpoch_empty {Ex P : Type} (M : ModelAdapter Ex P) (opt : Opts) (f : Ex → ℝ)
    (hm : opt.model = "transformer")
    (hf : ∀ (q : P) (ex : Ex),
      cust_loss (M.fwdT opt q ex).1 (M.fwdT opt q ex).2 opt.alpha opt.beta
        = Except.ok (f ex))
    (rest : List (List Ex)) :
    ∀ (pre : List (List Ex)), (∀ b ∈ pre, b ≠ []) → ∀ (tl : ℝ) (p : P),
      (runTrainEpoch M opt (pre ++ [] :: rest) tl p).result
        = Except.error PyError.zeroDivisionError := by
  intro pre
  induction pre with
  | nil => intro _ tl p; rfl
  | cons b pre' ih =>
    intro hpre tl p
    obtain ⟨h1, h2, h3⟩ := runTrainBatch_sum M opt f hm hf b 0 0 p
    have hb : b ≠ [] := hpre b (by simp)
    have hlen : b.length ≠ 0 := fun hc => hb (List.length_eq_zero.mp hc)
    rw [List.cons_append]
    simp only [runTrainEpoch]
    rw [h1]
    simp only []
    rw [h2, h3]
    rw [if_neg (show ¬(0 + b.length = 0) by simpa using hlen)]
    exact ih (fun b hbm => hpre b (by simp [hbm])) _ _

/-- The same for the evaluation variant. -/
lemma runEvalEpoch_empty {Ex P : Type} (M : ModelAdapter Ex P) (opt : Opts) (f : Ex → ℝ)
    (hm : opt.model = "transformer")
    (hf : ∀ (q : P) (ex : Ex),
      cust_loss (M.fwdT opt q ex).1 (M.fwdT opt q ex).2 opt.alpha opt.beta
        = Except.ok (f ex))
    (rest : List (List Ex)) :
    ∀ (pre : List (List Ex)), (∀ b ∈ pre, b ≠ []) → ∀ (tl : ℝ) (p : P),
      (runEvalEpoch M opt (pre ++ [] :: rest) tl p).result
        = Except.error PyError.zeroDivisionError := by
  intro pre
  induction pre with
  | nil => intro _ tl p; rfl
  | cons b pre' ih =>
    intro hpre tl p
    obtain ⟨h1, h2, h3, _⟩ := runEvalBatch_sum M opt f hm hf b 0 0 p
    have hb : b ≠ [] := hpre b (by simp)
    have hlen : b.length ≠ 0 := fun hc => hb (List.length_eq_zero.mp hc)
    rw [List.cons_append]
    simp only [runEvalEpoch]
    rw [h1]
    simp only []
    rw [h2, h3]
    rw [if_neg (show ¬(0 + b.length = 0) by simpa using hlen)]
    exact ih (fun b hbm => hpre b (by simp [hbm])) _ _

/-- Claim C5: a zero-example batch makes the epoch runner fail — with
the `ZeroDivisionError` of `batch_loss / n_motion` at `n_motion = 0`
(train.py lines 138 and 172), not the specified `EmptyBatchError` —
and an epoch failure aborts the orchestrator's loop before the save and
log steps, so no checkpoint is written for that epoch. -/
theorem empty_batch_zero_division_no_checkpoint {Ex P Q : Type} (M : ModelAdapter Ex P)
    (opt : Opts) (f : Ex → ℝ) (p : P) (pre rest : List (List Ex))
    (runT : Q → Q × Except PyError ℚ) (runE : Q → Except PyError ℚ)
    (opt2 : Opts) (n i : ℕ) (st : RunSt Q) (e : PyError)
    (hm : opt.model = "transformer")
    (hf : ∀ (q : P) (ex : Ex),
      cust_loss (M.fwdT opt q ex).1 (M.fwdT opt q ex).2 opt.alpha opt.beta
        = Except.ok (f ex))
    (hpre : ∀ b ∈ pre, b ≠ [])
    (he : (runT st.params).2 = Except.error e) :
    (train_epoch M (pre ++ [] :: rest) opt p).result
      = Except.error PyError.zeroDivisionError
    ∧ (eval_epoch M (pre ++ [] :: rest) opt p).result
        = Except.error PyError.zeroDivisionError
    ∧ (trainLoop runT runE opt2 (n + 1) i st).1.saves = st.saves
    ∧ (trainLoop runT runE opt2 (n + 1) i st).1.fs = st.fs
    ∧ (trainLoop runT runE opt2 (n + 1) i st).2 = some e := by
  obtain ⟨k0, k1, k2, _⟩ := epochBody_err runT runE opt2 i st e he
  have hstep : trainLoop runT runE opt2 (n + 1) i st
      = ((epochBody runT runE opt2 i st).1, some e) := by
    simp only [trainLoop]
    rw [k0]
  refine ⟨runTrainEpoch_empty M opt f hm hf rest pre hpre 0 p,
    runEvalEpoch_empty M opt f hm hf rest pre hpre 0 p, ?_, ?_, ?_⟩
  · rw [hstep]; exact k1
  · rw [hstep]; exact k2
  · rw [hstep]

/-- Witness for `empty_batch_zero_division_no_checkpoint` on the data
`[[0], []]` (one good batch, then an empty one) and a one-epoch loop
whose training epoch raises. -/
theorem empty_batch_zero_division_no_checkpoint_witness :
    (train_epoch M1 [[0], []] opt1 ()).result = Except.error PyError.zeroDivisionError
    ∧ (trainLoop runTErr runE0 optBest4 1 0 st0).1.saves = st0.saves :=
  ⟨(empty_batch_zero_division_no_checkpoint M1 opt1 f1 () [[0]] [] runTErr runE0
      optBest4 0 0 st0 PyError.runtimeError rfl hf1 (by decide) rfl).1,
   (empty_batch_zero_division_no_checkpoint M1 opt1 f1 () [[0]] [] runTErr runE0
      optBest4 0 0 st0 PyError.runtimeError rfl hf1 (by decide) rfl).2.2.1⟩

/-- Claim C6: a run resumed from a checkpoint with stored epoch index
`k` continues at epoch `k + 1` (under the extended epoch bound 601 the
code sets at resume time), appends to the two existing log files rather
than truncating them, and every checkpoint written by the resumed run
carries the checkpoint's restored configuration (with only the epoch
bound changed); a non-resumed first run, whose log files do not yet
exist, initializes both logs with the header row `epoch,loss`. -/
theorem resume_continues_at_next_epoch_and_appends_logs {P : Type} (chk : Checkpoint P)
    (runT : P → P × Except PyError ℚ) (runE : P → Except PyError ℚ)
    (fs : LogFiles) (A B : List String)
    (hT : ∀ q, ∃ v, (runT q).2 = Except.ok v)
    (hE : ∀ q, ∃ v, runE q = Except.ok v)
    (hlog : chk.settings.log.isSome = true)
    (hA : fs.trainLog = some A) (hB : fs.validLog = some B) :
    (mainResume chk runT runE fs).2 = none
    ∧ (mainResume chk runT runE fs).1.processed
        = List.range' (chk.epoch + 1) (601 - (chk.epoch + 1))
    ∧ (∃ ta, (mainResume chk runT runE fs).1.fs.trainLog = some (A ++ ta))
    ∧ (∃ tb, (mainResume chk runT runE fs).1.fs.validLog = some (B ++ tb))
    ∧ (∀ c ∈ (mainResume chk runT runE fs).1.saves,
        c.2.settings = { chk.settings with epoch := 601 })
    ∧ (∀ (opt : Opts) (p0 : P), opt.log.isSome = true →
        ∃ t1 t2,
          (mainFresh opt p0 runT runE ⟨none, none⟩).1.fs.trainLog
              = some (("epoch,loss") :: t1)
          ∧ (mainFresh opt p0 runT runE ⟨none, none⟩).1.fs.validLog
              = some (("epoch,loss") :: t2)) := by
  have hlogR : ({ chk.settings with epoch := 601 } : Opts).log.isSome = true := hlog
  have hinit : initLogs { chk.settings with epoch := 601 } fs = fs := by
    obtain ⟨d, hd⟩ := Option.isSome_iff_exists.mp hlogR
    simp only [initLogs]
    rw [hd]
    simp only []
    rw [if_pos ⟨by rw [hA]; rfl, by rw [hB]; rfl⟩]
  have hres : mainResume chk runT runE fs
      = trainLoop runT runE { chk.settings with epoch := 601 }
          (601 - (chk.epoch + 1)) (chk.epoch + 1)
          ⟨fs, [], [], [], [], chk.model⟩ := by
    rw [mainResume, train, hinit]
  obtain ⟨r0, r1, r2, r3, r4⟩ :=
    trainLoop_ok runT runE { chk.settings with epoch := 601 } hT hE hlogR
      (601 - (chk.epoch + 1)) (chk.epoch + 1)
      ⟨fs, [], [], [], [], chk.model⟩ A B hA hB
  rw [hres]
  refine ⟨r0, by rw [r1]; rfl, r2, r3, ?_, ?_⟩
  · intro c hc
    rcases r4 c hc with h | h
    · simp at h
    · exact h
  · intro opt p0 hl
    have hinitF : initLogs opt ⟨none, none⟩
        = ⟨some [("epoch,loss")], some [("epoch,loss")]⟩ := by
      obtain ⟨d, hd⟩ := Option.isSome_iff_exists.mp hl
      simp only [initLogs]
      rw [hd]
      simp only []
      rw [if_neg (by simp)]
    obtain ⟨_, _, ⟨ta, fa⟩, ⟨tb, fb⟩, _⟩ :=
      trainLoop_ok runT runE opt hT hE hl (opt.epoch - 0) 0
        ⟨⟨some [("epoch,loss")], some [("epoch,loss")]⟩, [], [], [], [], p0⟩
        [("epoch,loss")] [("epoch,loss")] rfl rfl
    refine ⟨ta, tb, ?_, ?_⟩
    · rw [mainFresh, train, hinitF]
      exact fa
    · rw [mainFresh, train, hinitF]
      exact fb

/-- A checkpoint stored at epoch 599 of a transformer run with logging
configured. -/
noncomputable def chkW : Checkpoint ℕ :=
  ⟨7, ⟨"transformer", 0, 0, 300, none, "best", 10, some ("./log/")⟩, 599⟩

/-- A filesystem on which both log files already exist with the header
row. -/
def fsW : LogFiles := ⟨some [("epoch,loss")], some [("epoch,loss")]⟩

/-- Witness for `resume_continues_at_next_epoch_and_appends_logs` at a
checkpoint with epoch index 599: the resumed run processes exactly
epoch 600. -/
theorem resume_continues_witness :
    (mainResume chkW runT52 runE0 fsW).2 = none
    ∧ (mainResume chkW runT52 runE0 fsW).1.processed = List.range' 600 (601 - 600) :=
  ⟨(resume_continues_at_next_epoch_and_appends_logs chkW runT52 runE0 fsW
      [("epoch,loss")] [("epoch,loss")]
      (fun q => ⟨seqLoss q, rfl⟩) (fun _ => ⟨0, rfl⟩) rfl rfl rfl).1,
   (resume_continues_at_next_epoch_and_appends_logs chkW runT52 runE0 fsW
      [("epoch,loss")] [("epoch,loss")]
      (fun q => ⟨seqLoss q, rfl⟩) (fun _ => ⟨0, rfl⟩) rfl rfl rfl).2.1⟩

end Train




